import Mathlib

/-!
Shallow embedding of the playback-control core of `cosmic-player`
(`src/gstreamer/mod.rs`): the `App` state (`position`, `dragging`, the
key-binding table and the video engine handle) and the `App::update`
message handler, together with the key-binding resolver.

Conventions of the embedding:
* `f64` seconds are modelled as `ℚ` (the claims are about control flow and
  sign conditions, not floating-point rounding).
* A Rust panic (`Option::unwrap`/`Result::expect`/`Duration::from_secs_f64`
  on a negative value) is modelled as `Except.error`; a normal return is
  `Except.ok`.  The Rust `update` returns `Command<Message>` and has no
  error channel, so an `Except.error` outcome means the process aborts.
* Calls made to the engine during one `update` are recorded in order in a
  trace of `EngineCall` events.
* The engine (`iced_video_player::Video`) is an external collaborator; its
  interface is modelled from the spec (section 6): `seek` returns a result
  and does not update the reported position synchronously, `set_paused` /
  `set_looping` mutate the engine flags.
-/

namespace CosmicPlayer

/-- Modelled from the spec: a key chord's modifier set
`{Ctrl, Alt, Shift, Super}` (the `key_bind` module is not under `src/`). -/
structure Modifiers where
  ctrl : Bool
  alt : Bool
  shift : Bool
  logo : Bool
deriving DecidableEq

/-- The empty modifier set (no modifiers held). -/
def noModifiers : Modifiers := ⟨false, false, false, false⟩

/-- Modelled from the spec: the physical-or-logical key identifier of a
chord.  Only the arrow keys are named by the spec's default bindings; all
other keys are collapsed into `other`. -/
inductive Key where
  | leftArrow
  | rightArrow
  | other (code : Nat)
deriving DecidableEq

/-- Modelled from the spec: a binding key, `{ modifiers, key }`
(the `key_bind` module is not under `src/`). -/
structure KeyBind where
  modifiers : Modifiers
  key : Key
deriving DecidableEq

/-- Modelled from the spec: chord matching is exact-set modifier comparison
plus key equality (spec section 3 and 4.1; `KeyBind::matches` is not under
`src/`). -/
def KeyBind.matches (kb : KeyBind) (modifiers : Modifiers) (key : Key) : Bool :=
  kb.modifiers == modifiers && kb.key == key

/-- The `Action` enum of `src/gstreamer/mod.rs`. -/
inductive Action where
  | SeekBackward
  | SeekForward
deriving DecidableEq

/-- The `Message` enum of `src/gstreamer/mod.rs`, restricted to the playback
core (the `Config` and `SystemThemeModeChange` variants only touch the
configuration/theming state, which is outside the modelled core). -/
inductive Message where
  | Key (modifiers : Modifiers) (key : Key)
  | TogglePause
  | ToggleLoop
  | Seek (secs : ℚ)
  | SeekRelative (secs : ℚ)
  | SeekRelease
  | EndOfStream
  | NewFrame
deriving DecidableEq

/-- `Action::message` of `src/gstreamer/mod.rs`. -/
def Action.message : Action → Message
  | Action.SeekBackward => Message.SeekRelative (-10)
  | Action.SeekForward => Message.SeekRelative 10

/-- One call made to the video engine during an `update`, recorded in call
order. -/
inductive EngineCall where
  | seek (target : ℚ) (accurate : Bool)
  | setPaused (value : Bool)
  | setLooping (value : Bool)
deriving DecidableEq

/-- The engine handle (`iced_video_player::Video`).  `paused`, `looping` are
the engine flags, `current` is the position the engine would currently
report, `duration` the media duration.  `seekOk` abstracts whether the
engine accepts seek requests (modelled from the spec: a seek may be
rejected, e.g. for an unseekable stream). -/
structure Video where
  paused : Bool
  looping : Bool
  current : ℚ
  duration : ℚ
  seekOk : Bool
deriving DecidableEq

/-- `Video::set_paused`. -/
def Video.set_paused (v : Video) (value : Bool) : Video := { v with paused := value }

/-- `Video::set_looping`. -/
def Video.set_looping (v : Video) (value : Bool) : Video := { v with looping := value }

/-- Modelled from the spec: `Video::seek(target, accurate)` returns a
result and is rejected exactly when the engine does not accept seeks; a
seek does not update the engine's reported `current` position
synchronously (spec sections 5 and 6). -/
def Video.seek (v : Video) (_target : ℚ) (_accurate : Bool) : Except String Video :=
  if v.seekOk then Except.ok v else Except.error "engine rejected seek"

/-- `std::time::Duration::from_secs_f64`, which panics when its argument is
negative (the panic is modelled as `Except.error`). -/
def Duration.from_secs_f64 (secs : ℚ) : Except String ℚ :=
  if secs < 0 then Except.error "from_secs_f64: negative" else Except.ok secs

/-- The `App` state of `src/gstreamer/mod.rs`, restricted to the playback
core (`core` and `flags` carry window/config state outside the core).  The
`HashMap<KeyBind, Action>` is modelled as the list of its entries in the
map's (arbitrary) iteration order. -/
structure App where
  key_binds : List (KeyBind × Action)
  video : Video
  position : ℚ
  dragging : Bool
deriving DecidableEq

/-- The binding resolver: first entry of the scanned binding list whose
chord matches, as in the `Message::Key` arm of `App::update`. -/
def resolve (binds : List (KeyBind × Action)) (modifiers : Modifiers) (key : Key) :
    Option Action :=
  Option.map Prod.snd (binds.find? fun p => p.1.matches modifiers key)

/-- One arm of the `match` in `App::update` for each message other than
`Message::Key` (which recurses in the source; see `update`).  The `Key`
arm here is unreachable: the recursion only ever receives `Action.message`
values, which are never `Message.Key`. -/
def update_one (app : App) : Message → Except String (App × List EngineCall)
  | Message.Key _ _ => Except.ok (app, [])
  | Message.TogglePause =>
    Except.ok ({ app with video := app.video.set_paused (!app.video.paused) },
      [EngineCall.setPaused (!app.video.paused)])
  | Message.ToggleLoop =>
    Except.ok ({ app with video := app.video.set_looping (!app.video.looping) },
      [EngineCall.setLooping (!app.video.looping)])
  | Message.Seek secs =>
    let app1 : App := { app with dragging := true, position := secs }
    match Duration.from_secs_f64 app1.position with
    | Except.error e => Except.error e
    | Except.ok d =>
      match app1.video.seek d false with
      | Except.error _ => Except.error "seek"
      | Except.ok v1 =>
        Except.ok ({ app1 with video := v1.set_paused false },
          [EngineCall.seek d false, EngineCall.setPaused false])
  | Message.SeekRelative secs =>
    match Duration.from_secs_f64 (app.position + secs) with
    | Except.error e => Except.error e
    | Except.ok d =>
      match app.video.seek d true with
      | Except.error _ => Except.error "seek"
      | Except.ok v1 => Except.ok ({ app with video := v1 }, [EngineCall.seek d true])
  | Message.SeekRelease =>
    let app1 : App := { app with dragging := false }
    match Duration.from_secs_f64 app1.position with
    | Except.error e => Except.error e
    | Except.ok d =>
      match app1.video.seek d true with
      | Except.error _ => Except.error "seek"
      | Except.ok v1 =>
        Except.ok ({ app1 with video := v1.set_paused false },
          [EngineCall.seek d true, EngineCall.setPaused false])
  | Message.EndOfStream => Except.ok (app, [])
  | Message.NewFrame =>
    if app.dragging then
      Except.ok ({ app with video := app.video.set_paused true },
        [EngineCall.setPaused true])
    else
      Except.ok ({ app with position := app.video.current }, [])

/-- `App::update` of `src/gstreamer/mod.rs`.  The `Message::Key` arm scans
`key_binds` in iteration order and, on the first match, dispatches the
action's message exactly as the source's `self.update(action.message())`
does (`Action.message` never yields `Message.Key`, so the recursion is one
level deep and is inlined through `update_one`). -/
def update (app : App) (msg : Message) : Except String (App × List EngineCall) :=
  match msg with
  | Message.Key modifiers key =>
    match app.key_binds.find? (fun p => p.1.matches modifiers key) with
    | some p => update_one app p.2.message
    | none => Except.ok (app, [])
  | m => update_one app m

/-- Modelled from the spec: the default binding table (`key_binds()` is not
under `src/`); the spec's default bindings are
`{no modifiers, LeftArrow} -> SeekBackward` and
`{no modifiers, RightArrow} -> SeekForward`. -/
def key_binds : List (KeyBind × Action) :=
  [(⟨noModifiers, Key.leftArrow⟩, Action.SeekBackward),
   (⟨noModifiers, Key.rightArrow⟩, Action.SeekForward)]

/-- The default binding table in the opposite iteration order (the
`HashMap` iteration order is arbitrary, so both orders can occur). -/
def key_binds_rev : List (KeyBind × Action) :=
  [(⟨noModifiers, Key.rightArrow⟩, Action.SeekForward),
   (⟨noModifiers, Key.leftArrow⟩, Action.SeekBackward)]

/-- Messages as the running program can produce them: the slider in `view`
emits `Message::Seek` only with values within its `0.0..=duration` range
(`Slider::new(0.0..=self.video.duration_as_secs_f64, ...)` in `view`);
every other message is unconstrained. -/
inductive MsgOk (dur : ℚ) : Message → Prop where
  | key (modifiers : Modifiers) (k : Key) : MsgOk dur (Message.Key modifiers k)
  | togglePause : MsgOk dur Message.TogglePause
  | toggleLoop : MsgOk dur Message.ToggleLoop
  | seek (s : ℚ) (h0 : 0 ≤ s) (h1 : s ≤ dur) : MsgOk dur (Message.Seek s)
  | seekRelative (d : ℚ) : MsgOk dur (Message.SeekRelative d)
  | seekRelease : MsgOk dur Message.SeekRelease
  | endOfStream : MsgOk dur Message.EndOfStream
  | newFrame : MsgOk dur Message.NewFrame

/-- Reachable controller states for a medium of duration `dur`: the initial
state of `App::init` (`position = 0.0`, `dragging = false`, engine freshly
loaded), closed under successful `update` steps on producible messages and
under autonomous engine progress (the engine reports positions within
`[0, dur]`; it is the source of truth for the position). -/
inductive Reachable (dur : ℚ) : App → Prop where
  | init (binds : List (KeyBind × Action)) (p l sOk : Bool) (c : ℚ)
      (hdur : 0 ≤ dur) (hc0 : 0 ≤ c) (hc1 : c ≤ dur) :
      Reachable dur (App.mk binds (Video.mk p l c dur sOk) 0 false)
  | step {app app' : App} {msg : Message} {tr : List EngineCall}
      (hr : Reachable dur app) (hm : MsgOk dur msg)
      (hu : update app msg = Except.ok (app', tr)) : Reachable dur app'
  | engine {app : App} {c : ℚ} (hr : Reachable dur app) (hc0 : 0 ≤ c) (hc1 : c ≤ dur) :
      Reachable dur { app with video := { app.video with current := c } }

/-- The positional part of the state invariant: both the controller's local
`position` mirror and the engine's reported position lie within
`[0, dur]`. -/
def GoodPos (dur : ℚ) (app : App) : Prop :=
  0 ≤ app.position ∧ app.position ≤ dur ∧ 0 ≤ app.video.current ∧ app.video.current ≤ dur

/-- Engine loaded with a 120 s medium that rejects seeks (e.g. an
unseekable stream), current playback at 5 s. -/
def app120 : App := ⟨key_binds, ⟨false, false, 0, 120, false⟩, 5, false⟩

/-- Engine loaded with a 120 s seekable medium, local position 3 s. -/
def appCex5 : App := ⟨key_binds, ⟨false, false, 0, 120, true⟩, 3, false⟩

/-- Engine loaded with a 120 s seekable medium, local position 0 s. -/
def appZero : App := ⟨key_binds, ⟨false, false, 0, 120, true⟩, 0, false⟩

/-- Engine loaded with a 120 s seekable medium, local position 30 s. -/
def appKeys : App := ⟨key_binds, ⟨false, false, 0, 120, true⟩, 30, false⟩

/-- Engine loaded with a 120 s seekable medium, local position 42 s. -/
def appRel : App := ⟨key_binds, ⟨false, false, 0, 120, true⟩, 42, false⟩

/-- Engine loaded with a 120 s seekable medium, playing at 33 s, local
position 3 s. -/
def appAbs : App := ⟨key_binds, ⟨true, false, 33, 120, true⟩, 3, false⟩

/-- Engine loaded with a 120 s seekable medium, local position 12 s. -/
def appPerm : App := ⟨key_binds, ⟨false, false, 0, 120, true⟩, 12, false⟩

/-- Start state of the spec's rapid-drag scenario. -/
def appSeq0 : App := ⟨key_binds, ⟨false, false, 0, 120, true⟩, 0, false⟩

/-- State after `seekAbsolute(10.0)` from `appSeq0`. -/
def appSeq1 : App := ⟨key_binds, ⟨false, false, 0, 120, true⟩, 10, true⟩

/-- State after the engine tick following `seekAbsolute(10.0)`. -/
def appSeq2 : App := ⟨key_binds, ⟨true, false, 0, 120, true⟩, 10, true⟩

/-- State after `seekAbsolute(20.0)` from `appSeq2`. -/
def appSeq3 : App := ⟨key_binds, ⟨false, false, 0, 120, true⟩, 20, true⟩

theorem find?_eq_head?_filter {α : Type} (p : α → Bool) :
    ∀ l : List α, l.find? p = (l.filter p).head?
  | [] => rfl
  | a :: t => by
    by_cases h : p a = true
    · rw [List.find?_cons_of_pos t h, List.filter_cons_of_pos h, List.head?_cons]
    · rw [List.find?_cons_of_neg t h, List.filter_cons_of_neg h, find?_eq_head?_filter p t]

theorem head?_eq_of_perm_of_unique {α : Type} {l l' : List α}
    (hperm : l.Perm l') (huniq : ∀ a ∈ l, ∀ b ∈ l, a = b) :
    l.head? = l'.head? := by
  cases l with
  | nil =>
    have : l' = [] := hperm.symm.eq_nil
    simp [this]
  | cons a t =>
    cases l' with
    | nil => exact absurd hperm.eq_nil (by simp)
    | cons b t' =>
      have hb : b ∈ a :: t := hperm.mem_iff.mpr (List.mem_cons_self b t')
      have : a = b := huniq a (List.mem_cons_self a t) b hb
      simp [this]

theorem find?_perm_of_unique {α : Type} (p : α → Bool) {l l' : List α}
    (hperm : l.Perm l')
    (huniq : ∀ a ∈ l, ∀ b ∈ l, p a = true → p b = true → a = b) :
    l.find? p = l'.find? p := by
  rw [find?_eq_head?_filter, find?_eq_head?_filter]
  refine head?_eq_of_perm_of_unique (hperm.filter p) ?_
  intro a ha b hb
  rw [List.mem_filter] at ha hb
  exact huniq a ha.1 b hb.1 ha.2 hb.2

theorem matches_canon {kb : KeyBind} {m : Modifiers} {k : Key}
    (h : kb.matches m k = true) : kb = ⟨m, k⟩ := by
  unfold KeyBind.matches at h
  rw [Bool.and_eq_true, beq_iff_eq, beq_iff_eq] at h
  calc kb = ⟨kb.modifiers, kb.key⟩ := rfl
  _ = ⟨m, k⟩ := by rw [h.1, h.2]

theorem matches_inj {p q : KeyBind × Action} {m : Modifiers} {k : Key}
    (hp : p.1.matches m k = true) (hq : q.1.matches m k = true) : p.1 = q.1 :=
  (matches_canon hp).trans (matches_canon hq).symm

theorem resolve_perm_invariant {binds binds' : List (KeyBind × Action)}
    (hperm : binds.Perm binds') (hnd : (binds.map Prod.fst).Nodup)
    (m : Modifiers) (k : Key) :
    resolve binds m k = resolve binds' m k := by
  unfold resolve
  rw [find?_perm_of_unique _ hperm]
  intro a ha b hb hpa hpb
  exact List.inj_on_of_nodup_map hnd ha hb (matches_inj hpa hpb)

/-- The `Message::Key` arm of `update` is a no-op returning no engine call
when the resolver finds no matching binding. -/
theorem update_key_none {app : App} {m : Modifiers} {k : Key}
    (h : resolve app.key_binds m k = none) :
    update app (Message.Key m k) = Except.ok (app, []) := by
  unfold resolve at h
  rw [Option.map_eq_none'] at h
  simp [update, h]

/-- C4: `onEngineTick` (`Message::NewFrame`) never overwrites `position`
while `dragging` is true and on every such tick forces the engine's
`paused` to true; when `dragging` is false it sets `position` to the
engine's reported current position, changes nothing else, and makes no
`set_paused` call. -/
theorem newFrame_spec (app : App) :
    update app Message.NewFrame =
      (if app.dragging then
        Except.ok ({ app with video := app.video.set_paused true },
          [EngineCall.setPaused true])
      else
        Except.ok ({ app with position := app.video.current }, [])) := rfl

/-- C8: `togglePause` (`Message::TogglePause`) flips the engine's `paused`
flag, and calling it twice in succession restores `paused` to its original
value. -/
theorem togglePause_toggle_pair (app : App) :
    update app Message.TogglePause =
      Except.ok ({ app with video := app.video.set_paused (!app.video.paused) },
        [EngineCall.setPaused (!app.video.paused)]) ∧
    ({ app with video := app.video.set_paused (!app.video.paused) } : App).video.paused
        = !app.video.paused ∧
    update { app with video := app.video.set_paused (!app.video.paused) }
        Message.TogglePause =
      Except.ok ({ app with video := app.video.set_paused app.video.paused },
        [EngineCall.setPaused app.video.paused]) := by
  refine ⟨rfl, rfl, ?_⟩
  cases h : app.video.paused <;>
    simp [update, update_one, Video.set_paused, h]

/-- C10: `seekRelative` (`Message::SeekRelative`) is not total: when
`position + delta` is negative, `Duration::from_secs_f64` panics (modelled
as `Except.error`), aborting instead of clamping or returning an error
value. -/
theorem seekRelative_panics_on_negative (app : App) (d : ℚ)
    (hneg : app.position + d < 0) :
    update app (Message.SeekRelative d) = Except.error "from_secs_f64: negative" := by
  simp [update, update_one, Duration.from_secs_f64, if_pos hneg]

/-- Witness for C10 at `position = 0`, `delta = -10`. -/
theorem seekRelative_panics_on_negative_witness :
    update appZero (Message.SeekRelative (-10)) = Except.error "from_secs_f64: negative" :=
  seekRelative_panics_on_negative appZero (-10) (by norm_num [appZero])

/-- C5 counterexample: at `position = 3`, `delta = -10` the claimed effect
("issues an accurate seek to `position + delta` and leaves the state
unchanged") fails — `Duration::from_secs_f64(3 - 10)` panics, so the
update aborts with no engine seek issued and no resulting state. -/
theorem seekRelative_claim_counterexample :
    update appCex5 (Message.SeekRelative (-10)) = Except.error "from_secs_f64: negative" := by
  with_unfolding_all rfl

/-- C5 (amended): for every state and delta with `0 ≤ position + delta`,
when the engine accepts the seek, `seekRelative` issues an accurate seek to
`position + delta` and leaves `position`, `dragging` and the engine's
`paused` flag unchanged (the returned state is exactly the input state). -/
theorem seekRelative_preserves_state (app : App) (d : ℚ)
    (hnn : 0 ≤ app.position + d) (hok : app.video.seekOk = true) :
    update app (Message.SeekRelative d) =
      Except.ok (app, [EngineCall.seek (app.position + d) true]) := by
  simp [update, update_one, Duration.from_secs_f64, Video.seek, hok, not_lt.mpr hnn]

/-- Witness for C5 (amended) at `position = 42`, `delta = 5`. -/
theorem seekRelative_preserves_state_witness :
    update appRel (Message.SeekRelative 5) =
      Except.ok (appRel, [EngineCall.seek (appRel.position + 5) true]) :=
  seekRelative_preserves_state appRel 5 (by norm_num [appRel]) rfl

/-- C1 counterexample: duration 120 s, the engine rejects the seek issued
by `seekAbsolute(200.0)`.  The controller does not return the failure as
an explicit result: `.expect("seek")` panics (modelled as `Except.error`),
so the process aborts and no post-call state (with its `position` and
`dragging` values) exists at all. -/
theorem seek_rejected_counterexample :
    update app120 (Message.Seek 200) = Except.error "seek" := by
  with_unfolding_all rfl

/-- C1 (amended): for every state and every `seconds ≥ 0`, if the engine
rejects the seek issued by `seekAbsolute` (`Message::Seek`), the handler
panics via `.expect("seek")` — the update aborts with an error instead of
returning a failure value or a successor state to its caller. -/
theorem seek_rejected_panics (app : App) (secs : ℚ)
    (hnn : 0 ≤ secs) (hrej : app.video.seekOk = false) :
    update app (Message.Seek secs) = Except.error "seek" := by
  simp [update, update_one, Duration.from_secs_f64, Video.seek, hrej, not_lt.mpr hnn]

/-- Witness for C1 (amended): the rejecting engine of `app120`, seeking to
50 s. -/
theorem seek_rejected_panics_witness :
    update app120 (Message.Seek 50) = Except.error "seek" :=
  seek_rejected_panics app120 50 (by norm_num) rfl

/-- C3: for every state and `0 ≤ s`, with the engine accepting the seek,
`seekAbsolute(s)` (`Message::Seek`) sets `dragging = true` and
`position = s`, issues an inaccurate seek (`accurate = false`) to `s` and
then forces the engine's `paused` to false; the next `onEngineTick`
(`Message::NewFrame`) leaves `position = s` unchanged. -/
theorem seekAbsolute_spec (app : App) (s : ℚ)
    (hnn : 0 ≤ s) (hok : app.video.seekOk = true) :
    update app (Message.Seek s) =
      Except.ok ({ app with
            dragging := true
            position := s
            video := app.video.set_paused false },
        [EngineCall.seek s false, EngineCall.setPaused false]) ∧
    update { app with
        dragging := true
        position := s
        video := app.video.set_paused false } Message.NewFrame =
      Except.ok ({ app with
            dragging := true
            position := s
            video := (app.video.set_paused false).set_paused true },
        [EngineCall.setPaused true]) := by
  constructor
  · simp [update, update_one, Duration.from_secs_f64, Video.seek, Video.set_paused, hok,
      not_lt.mpr hnn]
  · rfl

/-- Witness for C3: `appAbs` (playing at 33 s, local position 3 s),
`seekAbsolute(50.0)`. -/
theorem seekAbsolute_spec_witness :
    update appAbs (Message.Seek 50) =
      Except.ok ({ appAbs with
            dragging := true
            position := 50
            video := appAbs.video.set_paused false },
        [EngineCall.seek 50 false, EngineCall.setPaused false]) ∧
    update { appAbs with
        dragging := true
        position := 50
        video := appAbs.video.set_paused false } Message.NewFrame =
      Except.ok ({ appAbs with
            dragging := true
            position := 50
            video := (appAbs.video.set_paused false).set_paused true },
        [EngineCall.setPaused true]) :=
  seekAbsolute_spec appAbs 50 (by norm_num) rfl

/-- C6: in every state with a drag in progress and a nonnegative dragged
`position`, with the engine accepting the seek, `seekRelease`
(`Message::SeekRelease`) sets `dragging = false`, issues an accurate seek
to the last dragged `position` and forces the engine's `paused` to
false. -/
theorem seekRelease_finalizes (app : App) (_hdrag : app.dragging = true)
    (hnn : 0 ≤ app.position) (hok : app.video.seekOk = true) :
    update app Message.SeekRelease =
      Except.ok ({ app with dragging := false, video := app.video.set_paused false },
        [EngineCall.seek app.position true, EngineCall.setPaused false]) := by
  simp [update, update_one, Duration.from_secs_f64, Video.seek, Video.set_paused, hok,
    not_lt.mpr hnn]

/-- Witness for C6: the spec's rapid-drag scenario — `seekAbsolute(10.0)`,
`onEngineTick()`, `seekAbsolute(20.0)`, `seekRelease()` ends with
`dragging = false`, `position = 20`, `paused = false`. -/
theorem seekRelease_finalizes_witness :
    update appSeq0 (Message.Seek 10) =
      Except.ok (appSeq1, [EngineCall.seek 10 false, EngineCall.setPaused false]) ∧
    update appSeq1 Message.NewFrame = Except.ok (appSeq2, [EngineCall.setPaused true]) ∧
    update appSeq2 (Message.Seek 20) =
      Except.ok (appSeq3, [EngineCall.seek 20 false, EngineCall.setPaused false]) ∧
    update appSeq3 Message.SeekRelease =
      Except.ok ({ appSeq3 with
            dragging := false
            video := appSeq3.video.set_paused false },
        [EngineCall.seek appSeq3.position true, EngineCall.setPaused false]) ∧
    appSeq3.position = 20 ∧
    ({ appSeq3 with
        dragging := false
        video := appSeq3.video.set_paused false } : App).dragging = false ∧
    ({ appSeq3 with
        dragging := false
        video := appSeq3.video.set_paused false } : App).position = 20 ∧
    ({ appSeq3 with
        dragging := false
        video := appSeq3.video.set_paused false } : App).video.paused = false :=
  ⟨rfl, rfl, rfl,
   seekRelease_finalizes appSeq3 rfl (by norm_num [appSeq3]) rfl,
   rfl, rfl, rfl, rfl⟩

theorem update_seekRel_neg (app : App) (d : ℚ) (h : app.position + d < 0) :
    update app (Message.SeekRelative d) = Except.error "from_secs_f64: negative" := by
  simp [update, update_one, Duration.from_secs_f64, if_pos h]

theorem update_seekRel_rej (app : App) (d : ℚ) (h : ¬ app.position + d < 0)
    (hrej : app.video.seekOk = false) :
    update app (Message.SeekRelative d) = Except.error "seek" := by
  simp [update, update_one, Duration.from_secs_f64, Video.seek, h, hrej]

theorem update_seekRel_ok (app : App) (d : ℚ) (h : ¬ app.position + d < 0)
    (hok : app.video.seekOk = true) :
    update app (Message.SeekRelative d) =
      Except.ok (app, [EngineCall.seek (app.position + d) true]) := by
  simp [update, update_one, Duration.from_secs_f64, Video.seek, h, hok]

theorem update_seek_neg (app : App) (s : ℚ) (h : s < 0) :
    update app (Message.Seek s) = Except.error "from_secs_f64: negative" := by
  simp [update, update_one, Duration.from_secs_f64, if_pos h]

theorem update_seek_rej (app : App) (s : ℚ) (h : ¬ s < 0)
    (hrej : app.video.seekOk = false) :
    update app (Message.Seek s) = Except.error "seek" := by
  simp [update, update_one, Duration.from_secs_f64, Video.seek, h, hrej]

theorem update_seek_ok (app : App) (s : ℚ) (h : ¬ s < 0)
    (hok : app.video.seekOk = true) :
    update app (Message.Seek s) =
      Except.ok ({ app with
            dragging := true
            position := s
            video := app.video.set_paused false },
        [EngineCall.seek s false, EngineCall.setPaused false]) := by
  simp [update, update_one, Duration.from_secs_f64, Video.seek, Video.set_paused, h, hok]

theorem update_release_neg (app : App) (h : app.position < 0) :
    update app Message.SeekRelease = Except.error "from_secs_f64: negative" := by
  simp [update, update_one, Duration.from_secs_f64, if_pos h]

theorem update_release_rej (app : App) (h : ¬ app.position < 0)
    (hrej : app.video.seekOk = false) :
    update app Message.SeekRelease = Except.error "seek" := by
  simp [update, update_one, Duration.from_secs_f64, Video.seek, h, hrej]

theorem update_release_ok (app : App) (h : ¬ app.position < 0)
    (hok : app.video.seekOk = true) :
    update app Message.SeekRelease =
      Except.ok ({ app with
            dragging := false
            video := app.video.set_paused false },
        [EngineCall.seek app.position true, EngineCall.setPaused false]) := by
  simp [update, update_one, Duration.from_secs_f64, Video.seek, Video.set_paused, h, hok]

/-- A successful relative seek returns the state unchanged. -/
theorem seekRel_state_id {app app' : App} {d : ℚ} {tr : List EngineCall}
    (hu : update app (Message.SeekRelative d) = Except.ok (app', tr)) : app' = app := by
  by_cases hneg : app.position + d < 0
  · rw [update_seekRel_neg app d hneg] at hu
    exact absurd hu (by simp)
  · cases hok : app.video.seekOk with
    | false =>
      rw [update_seekRel_rej app d hneg hok] at hu
      exact absurd hu (by simp)
    | true =>
      rw [update_seekRel_ok app d hneg hok] at hu
      injection hu with h
      injection h with h1 h2
      exact h1.symm

theorem matches_def_ll :
    KeyBind.matches ⟨noModifiers, Key.leftArrow⟩ noModifiers Key.leftArrow = true := rfl

theorem matches_def_lr :
    KeyBind.matches ⟨noModifiers, Key.leftArrow⟩ noModifiers Key.rightArrow = false := rfl

theorem matches_def_rr :
    KeyBind.matches ⟨noModifiers, Key.rightArrow⟩ noModifiers Key.rightArrow = true := rfl

/-- C2: resolution over the binding map is deterministic and reproducible:
the resolver returns the first binding whose chord matches in the scanned
order, and — because matching is exact and the map's chords are unique —
the result is the same for every iteration order of the same binding map
(hence equal to resolution in declaration order); when no binding matches,
`Message::Key` dispatches no action and leaves the state unchanged. -/
theorem resolve_deterministic (binds binds' : List (KeyBind × Action))
    (m : Modifiers) (k : Key) (app : App)
    (hperm : binds.Perm binds') (hnd : (binds.map Prod.fst).Nodup)
    (hbinds : app.key_binds = binds) :
    resolve binds m k = resolve binds' m k ∧
    resolve binds m k = Option.map Prod.snd (binds.find? fun p => p.1.matches m k) ∧
    (resolve binds m k = none → update app (Message.Key m k) = Except.ok (app, [])) := by
  refine ⟨resolve_perm_invariant hperm hnd m k, rfl, fun h => ?_⟩
  exact update_key_none (by rw [hbinds]; exact h)

/-- Witness for C2: the default binding map in its two iteration orders,
resolved at an unbound chord. -/
theorem resolve_deterministic_witness :
    resolve key_binds noModifiers (Key.other 7) =
      resolve key_binds_rev noModifiers (Key.other 7) ∧
    update appPerm (Message.Key noModifiers (Key.other 7)) = Except.ok (appPerm, []) :=
  ⟨(resolve_deterministic key_binds key_binds_rev noModifiers (Key.other 7) appPerm
      (by decide) (by decide) rfl).1,
   (resolve_deterministic key_binds key_binds_rev noModifiers (Key.other 7) appPerm
      (by decide) (by decide) rfl).2.2 rfl⟩

/-- C9: `resolveAndDispatch` (`Message::Key`) is a no-op when no binding
matches; `SeekBackward` maps to exactly `seekRelative(-10.0)` and
`SeekForward` to exactly `seekRelative(+10.0)`, and with the default
bindings, dispatching LeftArrow (no modifiers) issues an accurate relative
seek of −10 s and RightArrow one of +10 s, leaving the state unchanged. -/
theorem resolveAndDispatch_spec (app : App) (m : Modifiers) (k : Key)
    (h10 : 10 ≤ app.position) (hok : app.video.seekOk = true)
    (hdef : app.key_binds = key_binds) :
    (resolve app.key_binds m k = none →
      update app (Message.Key m k) = Except.ok (app, [])) ∧
    Action.SeekBackward.message = Message.SeekRelative (-10) ∧
    Action.SeekForward.message = Message.SeekRelative 10 ∧
    update app (Message.Key noModifiers Key.leftArrow) =
      Except.ok (app, [EngineCall.seek (app.position + (-10)) true]) ∧
    update app (Message.Key noModifiers Key.rightArrow) =
      Except.ok (app, [EngineCall.seek (app.position + 10) true]) := by
  have hnn1 : ¬ app.position + (-10) < 0 := by
    rw [not_lt]
    linarith
  have hnn2 : ¬ app.position + 10 < 0 := by
    rw [not_lt]
    linarith
  refine ⟨fun h => update_key_none h, rfl, rfl, ?_, ?_⟩
  · have hL : update app (Message.Key noModifiers Key.leftArrow)
        = update_one app (Message.SeekRelative (-10)) := by
      simp only [update, hdef, key_binds, List.find?, matches_def_ll, Action.message]
    rw [hL, show update_one app (Message.SeekRelative (-10))
        = update app (Message.SeekRelative (-10)) from rfl]
    exact update_seekRel_ok app (-10) hnn1 hok
  · have hR : update app (Message.Key noModifiers Key.rightArrow)
        = update_one app (Message.SeekRelative 10) := by
      simp only [update, hdef, key_binds, List.find?, matches_def_lr, matches_def_rr,
        Action.message]
    rw [hR, show update_one app (Message.SeekRelative 10)
        = update app (Message.SeekRelative 10) from rfl]
    exact update_seekRel_ok app 10 hnn2 hok

/-- Witness for C9 at `appKeys` (position 30 s): an unbound chord is a
no-op; LeftArrow and RightArrow dispatch the ∓10 s relative seeks. -/
theorem resolveAndDispatch_spec_witness :
    update appKeys (Message.Key noModifiers (Key.other 0)) = Except.ok (appKeys, []) ∧
    update appKeys (Message.Key noModifiers Key.leftArrow) =
      Except.ok (appKeys, [EngineCall.seek (appKeys.position + (-10)) true]) ∧
    update appKeys (Message.Key noModifiers Key.rightArrow) =
      Except.ok (appKeys, [EngineCall.seek (appKeys.position + 10) true]) :=
  ⟨(resolveAndDispatch_spec appKeys noModifiers (Key.other 0)
      (by norm_num [appKeys]) rfl rfl).1 rfl,
   (resolveAndDispatch_spec appKeys noModifiers (Key.other 0)
      (by norm_num [appKeys]) rfl rfl).2.2.2.1,
   (resolveAndDispatch_spec appKeys noModifiers (Key.other 0)
      (by norm_num [appKeys]) rfl rfl).2.2.2.2⟩

theorem goodPos_of_fields {dur : ℚ} {app app' : App}
    (h : GoodPos dur app) (hp : app'.position = app.position)
    (hc : app'.video.current = app.video.current) : GoodPos dur app' := by
  unfold GoodPos at h ⊢
  rw [hp, hc]
  exact h

/-- Every reachable state keeps both the local position mirror and the
engine's reported position within `[0, dur]`. -/
theorem reachable_good {dur : ℚ} {app : App} (h : Reachable dur app) :
    GoodPos dur app := by
  induction h with
  | init binds p l sOk c hdur hc0 hc1 => exact ⟨le_refl 0, hdur, hc0, hc1⟩
  | @engine app c hr hc0 hc1 ih => exact ⟨ih.1, ih.2.1, hc0, hc1⟩
  | @step app app' msg tr hr hm hu ih =>
    cases hm with
    | key m k =>
      simp only [update] at hu
      split at hu
      · rename_i p hfind
        obtain ⟨kb, a⟩ := p
        have hone : ∀ d : ℚ, update_one app (Message.SeekRelative d)
            = update app (Message.SeekRelative d) := fun _ => rfl
        cases a with
        | SeekBackward =>
          simp only [Action.message] at hu
          rw [hone] at hu
          have hid := seekRel_state_id hu
          subst hid
          exact ih
        | SeekForward =>
          simp only [Action.message] at hu
          rw [hone] at hu
          have hid := seekRel_state_id hu
          subst hid
          exact ih
      · injection hu with h
        injection h with ha hb
        subst ha
        exact ih
    | togglePause =>
      injection hu with h
      injection h with ha hb
      subst ha
      exact goodPos_of_fields ih rfl rfl
    | toggleLoop =>
      injection hu with h
      injection h with ha hb
      subst ha
      exact goodPos_of_fields ih rfl rfl
    | seek s h0 h1 =>
      cases hok : app.video.seekOk with
      | false =>
        rw [update_seek_rej app s (not_lt.mpr h0) hok] at hu
        exact absurd hu (by simp)
      | true =>
        rw [update_seek_ok app s (not_lt.mpr h0) hok] at hu
        injection hu with h
        injection h with ha hb
        subst ha
        exact ⟨h0, h1, ih.2.2.1, ih.2.2.2⟩
    | seekRelative d =>
      have hid := seekRel_state_id hu
      subst hid
      exact ih
    | seekRelease =>
      by_cases hneg : app.position < 0
      · rw [update_release_neg app hneg] at hu
        exact absurd hu (by simp)
      · cases hok : app.video.seekOk with
        | false =>
          rw [update_release_rej app hneg hok] at hu
          exact absurd hu (by simp)
        | true =>
          rw [update_release_ok app hneg hok] at hu
          injection hu with h
          injection h with ha hb
          subst ha
          exact goodPos_of_fields ih rfl rfl
    | endOfStream =>
      injection hu with h
      injection h with ha hb
      subst ha
      exact ih
    | newFrame =>
      by_cases hd : app.dragging = true
      · simp only [update, update_one, if_pos hd] at hu
        injection hu with h
        injection h with ha hb
        subst ha
        exact goodPos_of_fields ih rfl rfl
      · simp only [update, update_one, if_neg hd] at hu
        injection hu with h
        injection h with ha hb
        subst ha
        exact ⟨ih.2.2.1, ih.2.2.2, ih.2.2.1, ih.2.2.2⟩

/-- C7: in every reachable state of the playback controller the invariant
`0 ≤ position ≤ duration` holds; it is preserved by every producible
command and engine tick (`Reachable` closes the initial state under all
successful `update` steps and engine progress). -/
theorem position_within_duration {dur : ℚ} {app : App} (h : Reachable dur app) :
    0 ≤ app.position ∧ app.position ≤ dur :=
  ⟨(reachable_good h).1, (reachable_good h).2.1⟩

/-- Witness for C7: the state reached from startup by `seekAbsolute(10.0)`
on a 120 s medium satisfies the invariant. -/
theorem position_within_duration_witness :
    0 ≤ appSeq1.position ∧ appSeq1.position ≤ 120 :=
  position_within_duration
    (@Reachable.step 120 appSeq0 appSeq1 (Message.Seek 10)
      [EngineCall.seek 10 false, EngineCall.setPaused false]
      ((Reachable.init key_binds false false true 0 (by norm_num) (by norm_num)
          (by norm_num)) : Reachable 120 appSeq0)
      (MsgOk.seek 10 (by norm_num) (by norm_num))
      (by with_unfolding_all rfl))

end CosmicPlayer
